import Mathlib

/-!
Verification of the line-classification core of the play formatter
(`PlayFormatter` in `play_formatter.py` / `streamlit_app.py`; the two
copies of the class are line-for-line identical in the parsing core).

The embedding works over `List Char` and models the Python string
primitives the source uses (`str.strip`, `str.split`, `str.lower`,
`str.upper`, `str.isupper`, substring containment, and the three regular
expressions) for ASCII text; the regex class `\s` and `str.strip`
whitespace are modelled by the six ASCII whitespace characters.
The nested `while` loops of `parse_play` are modelled by a single
recursive function `parseLoop` over an explicit fuel counter together
with the cursor `i` and a flag telling whether the walk is inside a
speech block (the inner loop of the source); the fuel supplied by
`parse_play` is shown to be sufficient (the result is unchanged by any
extra fuel).  `parseLoop` tags every emitted element with the index of
the input line it was produced from, so that ordering statements can be
made; `parse_play` itself discards the tags.
-/

namespace PlayFormatter

/-- ASCII model of Python whitespace (`str.strip`, `str.split`, regex class). -/
def pyIsSpace (c : Char) : Bool :=
  c = ' ' || c = '\t' || c = '\n' || c = '\r' || c = '\x0b' || c = '\x0c'

/-- The apostrophe character (code point 39). -/
def apos : Char := Char.ofNat 39

/-- Python `s.strip()`: remove leading and trailing whitespace. -/
def pyStrip (cs : List Char) : List Char :=
  ((cs.dropWhile pyIsSpace).reverse.dropWhile pyIsSpace).reverse

/-- Python `s.strip('()')`: remove leading and trailing parenthesis characters. -/
def pyStripParens (cs : List Char) : List Char :=
  ((cs.dropWhile fun c => c = '(' || c = ')').reverse.dropWhile
      fun c => c = '(' || c = ')').reverse

/-- Python `s.lower()` (ASCII). -/
def pyLower (cs : List Char) : List Char := cs.map Char.toLower

/-- Python `s.upper()` (ASCII). -/
def pyUpper (cs : List Char) : List Char := cs.map Char.toUpper

/-- Python `s.isupper()` (ASCII): at least one cased character and no
lowercase cased character. -/
def pyIsUpperStr (cs : List Char) : Bool :=
  cs.any Char.isAlpha && cs.all fun c => !c.isAlpha || c.isUpper

/-- Python `text.split('\n')`: split at every newline, keeping empty pieces. -/
def splitOnNL : List Char → List (List Char)
  | [] => [[]]
  | c :: rest =>
    if c = '\n' then [] :: splitOnNL rest
    else
      match splitOnNL rest with
      | [] => [[c]]
      | l :: ls => (c :: l) :: ls

/-- Helper for `pySplit`: accumulates the current word (reversed). -/
def pyWords : List Char → List Char → List (List Char)
  | [], acc => if acc = [] then [] else [acc.reverse]
  | c :: rest, acc =>
    if pyIsSpace c then
      if acc = [] then pyWords rest [] else acc.reverse :: pyWords rest []
    else pyWords rest (c :: acc)

/-- Python `s.split()` with no argument: whitespace-separated words,
empty pieces dropped. -/
def pySplit (cs : List Char) : List (List Char) := pyWords cs []

/-- `leadsWith n h` holds when `n` is an initial segment of `h`
(Python `h.startswith(n)`). -/
def leadsWith : List Char → List Char → Bool
  | [], _ => true
  | _ :: _, [] => false
  | a :: as, b :: bs => a = b && leadsWith as bs

/-- Python `n in h` for strings: substring containment. -/
def containsSub (needle : List Char) : List Char → Bool
  | [] => leadsWith needle []
  | c :: rest => leadsWith needle (c :: rest) || containsSub needle rest

/-- Regex word character (`\w` for ASCII). -/
def isWordChar (c : Char) : Bool := c.isAlpha || c.isDigit || c = '_'

/-- The word `w` occurs at the very start of `cs` with a word boundary
after it. -/
def matchAt (w cs : List Char) : Bool :=
  leadsWith w cs &&
    (match cs.drop w.length with
     | [] => true
     | d :: _ => !isWordChar d)

/-- `searchWord w ok cs`: the word `w` occurs somewhere in `cs` with word
boundaries on both sides; `ok` records whether the character just before
the current position is a boundary. -/
def searchWord (w : List Char) : Bool → List Char → Bool
  | ok, [] => ok && matchAt w []
  | ok, c :: rest => (ok && matchAt w (c :: rest)) || searchWord w (!isWordChar c) rest

/-- Regex `re.search` for an alternation of literal words with `\b` on
both sides. -/
def searchWordAny (ws : List (List Char)) (cs : List Char) : Bool :=
  ws.any fun w => searchWord w true cs

/-- The class constant `STAGE_DIRECTION_WORDS`. -/
def stageDirectionWords : List (List Char) :=
  ["softly", "loudly", "yelling", "yells", "whispers", "shouting", "shouts",
   "laughing", "laughs", "smiling", "smiles", "crying", "cries", "pause", "beat",
   "pauses", "enters", "exits", "sits", "stands", "walks", "looks", "runs",
   "turning", "looking", "walking", "sitting", "standing", "pointing", "gesturing",
   "waving", "nodding", "shaking", "grabbing", "reaching", "pulling", "pushing",
   "squints", "biting", "checking", "imitating", "patting", "opens", "closes",
   "drops", "takes", "puts", "gets", "sets", "rushes", "freezes", "interrupting"
  ].map String.data

/-- The stoplist of staging keywords excluded from the name registry
(`identify_character_names`). -/
def nameStoplist : List (List Char) :=
  ["LIGHTS UP", "BLACKOUT", "END", "THE", "AND", "OR",
   "LIGHTS", "CURTAIN", "SCENE", "ACT", "FADE"].map String.data

/-- Phrases of the regex in `is_stage_direction`:
`\b(enters|exits|sits down|stands up|walks to|looks at|turns to)\b`. -/
def sdPhrases : List (List Char) :=
  ["enters", "exits", "sits down", "stands up", "walks to", "looks at",
   "turns to"].map String.data

/-- Verbs of the regex in `is_action_line`:
`\b(looks|sits|stands|walks|enters|exits|turns|grabs|takes|puts)\b`. -/
def actionVerbs : List (List Char) :=
  ["looks", "sits", "stands", "walks", "enters", "exits", "turns",
   "grabs", "takes", "puts"].map String.data

/-- Regex `re.match(r'^[A-Z][A-Z\s\-\']{1,30}$', line)` of
`identify_character_names`. -/
def matchNameRe (cs : List Char) : Bool :=
  match cs with
  | [] => false
  | c :: rest =>
    c.isUpper &&
      rest.all (fun d => d.isUpper || pyIsSpace d || d = '-' || d = apos) &&
      decide (1 ≤ rest.length) && decide (rest.length ≤ 30)

/-- Regex `re.match(r'^(ACT|SCENE|INT\.|EXT\.)', line, re.IGNORECASE)`. -/
def isSceneHeadingLine (cs : List Char) : Bool :=
  (["act", "scene", "int.", "ext."].map String.data).any
    fun p => leadsWith p (pyLower cs)

/-- Regex `re.match(r'^(ACT|SCENE)', line, re.IGNORECASE)` (used for the
start-of-content scan and for the break out of a speech block). -/
def isActSceneLine (cs : List Char) : Bool :=
  (["act", "scene"].map String.data).any fun p => leadsWith p (pyLower cs)

/-- The literal list `['Beat.', 'Beat', 'beat.', 'beat']` of `parse_play`. -/
def beatForms : List (List Char) :=
  ["Beat.", "Beat", "beat.", "beat"].map String.data

/-- `PlayFormatter.is_stage_direction`. -/
def is_stage_direction (text : List Char) : Bool :=
  let textLower := pyStrip (pyLower text)
  (leadsWith ['('] text && decide (text.getLast? = some ')')) ||
  (match pySplit textLower with
   | [] => false
   | w :: _ => decide (w ∈ stageDirectionWords)) ||
  searchWordAny sdPhrases textLower

/-- `PlayFormatter.is_action_line` (the registry `ns` stands for the
instance state `self.character_names`). -/
def is_action_line (ns : List (List Char)) (text : List Char) : Bool :=
  (ns.any (fun n => containsSub n text) && searchWordAny actionVerbs (pyLower text)) ||
  (decide (10 < (pySplit text).length) && !pyIsUpperStr text)

/-- Python `set.add`, modelled on lists: keep the list unchanged when the
element is already present. -/
def addIfNew (s : List Char) (ns : List (List Char)) : List (List Char) :=
  if s ∈ ns then ns else s :: ns

/-- The acceptance test of `identify_character_names`: name-shaped, not a
stoplist member, at most four words. -/
def nameCandidate (s : List Char) : Bool :=
  matchNameRe s && decide (s ∉ nameStoplist) && decide ((pySplit s).length ≤ 4)

/-- One line of the `identify_character_names` loop. -/
def regStep (ns : List (List Char)) (l : List Char) : List (List Char) :=
  if nameCandidate (pyStrip l) then addIfNew (pyStrip l) ns else ns

/-- `PlayFormatter.identify_character_names`: scans every line of `text`
and adds accepted names to the registry `ns` (the mutable instance set
`self.character_names`, threaded explicitly). -/
def identify_character_names (ns : List (List Char)) (text : List Char) :
    List (List Char) :=
  (splitOnNL text).foldl regStep ns

/-- The start-of-content scan of `parse_play`: index of the first line
that is a registry member or matches `^(ACT|SCENE)`, backed up by one
(clamped at 0); 0 when no line triggers. -/
def startIdx (ns lines : List (List Char)) : Nat :=
  match lines.findIdx? (fun l => decide (pyStrip l ∈ ns) || isActSceneLine (pyStrip l)) with
  | some i => i - 1
  | none => 0

/-- The element kinds emitted by `parse_play` (the `'type'` field of the
emitted dictionaries). -/
inductive ElemKind where
  | scene_heading
  | character
  | dialogue
  | stage_direction
  | action
  deriving DecidableEq

/-- One emitted element: a kind together with its `'text'` field. -/
structure Element where
  type : ElemKind
  text : List Char
  deriving DecidableEq

/-- `lines[i].strip()` (with an empty default; every access in the source
is guarded by `i < len(lines)`). -/
def lineAt (lines : List (List Char)) (i : Nat) : List Char :=
  pyStrip (lines.getD i [])

/-- The line walk of `parse_play`.  The Boolean argument tells whether the
walk is currently in the inner loop of the source (collecting one
character's speech block); `true` corresponds to being inside.  Each
emitted element is paired with the index of the line it was produced
from.  The fuel argument only bounds the recursion; `parse_play` supplies
enough fuel, as the fuel-stability theorems below establish. -/
def parseLoop (ns lines : List (List Char)) : Nat → Nat → Bool → List (Element × Nat)
  | 0, _, _ => []
  | f + 1, i, true =>
    if i < lines.length then
      if lineAt lines i = [] then
        if i + 1 < lines.length ∧ lineAt lines (i + 1) ≠ [] then
          if lineAt lines (i + 1) ∈ ns then parseLoop ns lines f (i + 1) false
          else if is_action_line ns (lineAt lines (i + 1)) then
            parseLoop ns lines f (i + 1) false
          else parseLoop ns lines f (i + 1) true
        else parseLoop ns lines f (i + 1) true
      else if lineAt lines i ∈ ns then parseLoop ns lines f i false
      else if isActSceneLine (lineAt lines i) then parseLoop ns lines f i false
      else if leadsWith ['('] (lineAt lines i) ∧ ')' ∈ lineAt lines i then
        if (lineAt lines i).findIdx (fun c => c = ')') < (lineAt lines i).length - 1 then
          (⟨ElemKind.dialogue, lineAt lines i⟩, i) :: parseLoop ns lines f (i + 1) true
        else
          (⟨ElemKind.stage_direction, pyStripParens (lineAt lines i)⟩, i) ::
            parseLoop ns lines f (i + 1) true
      else if is_stage_direction (lineAt lines i) ∧ ¬ ' ' ∈ (lineAt lines i).take 15 then
        (⟨ElemKind.stage_direction, lineAt lines i⟩, i) :: parseLoop ns lines f (i + 1) true
      else
        (⟨ElemKind.dialogue, lineAt lines i⟩, i) :: parseLoop ns lines f (i + 1) true
    else []
  | f + 1, i, false =>
    if i < lines.length then
      if lineAt lines i = [] then parseLoop ns lines f (i + 1) false
      else if isSceneHeadingLine (lineAt lines i) then
        (⟨ElemKind.scene_heading, pyUpper (lineAt lines i)⟩, i) ::
          parseLoop ns lines f (i + 1) false
      else if containsSub ("LIGHTS UP".data) (pyUpper (lineAt lines i)) then
        (⟨ElemKind.action, lineAt lines i⟩, i) :: parseLoop ns lines f (i + 1) false
      else if lineAt lines i ∈ beatForms then
        (⟨ElemKind.action, "Beat.".data⟩, i) :: parseLoop ns lines f (i + 1) false
      else if lineAt lines i ∈ ns then
        (⟨ElemKind.character, lineAt lines i⟩, i) :: parseLoop ns lines f (i + 1) true
      else if is_action_line ns (lineAt lines i) then
        (⟨ElemKind.action, lineAt lines i⟩, i) :: parseLoop ns lines f (i + 1) false
      else if lineAt lines i ≠ [] ∧ ¬ pyIsUpperStr (lineAt lines i) ∧
          5 < (lineAt lines i).length then
        (⟨ElemKind.action, lineAt lines i⟩, i) :: parseLoop ns lines f (i + 1) false
      else parseLoop ns lines f (i + 1) false
    else []

/-- Fuel needed by `parseLoop` from cursor `i` in mode `m` over `l` lines:
every step of the walk strictly decreases this quantity. -/
def fuelNeed (l i : Nat) (m : Bool) : Nat :=
  if m then 2 * (l - i) + 1 else 2 * (l - i)

/-- `parse_play` on an instance whose registry currently holds `ns`,
with `extra` additional fuel beyond the `2 * number of lines + 2` that
`parse_play` itself uses, returning elements tagged with source line
indices. -/
def parsePlayAnnotatedWith (ns : List (List Char)) (extra : Nat) (text : String) :
    List (Element × Nat) :=
  let lines := splitOnNL text.data
  let names := identify_character_names ns text.data
  parseLoop names lines (2 * lines.length + 2 + extra) (startIdx names lines) false

/-- `parse_play` called on an instance whose mutable registry currently
holds `ns`: returns the element list together with the registry the
instance is left with. -/
def parse_playWith (ns : List (List Char)) (text : String) :
    List Element × List (List Char) :=
  ((parsePlayAnnotatedWith ns 0 text).map Prod.fst,
    identify_character_names ns text.data)

/-- `parse_play` on a freshly constructed `PlayFormatter`, with source
line tags. -/
def parsePlayAnnotated (text : String) : List (Element × Nat) :=
  parsePlayAnnotatedWith [] 0 text

/-- `PlayFormatter().parse_play(text)`: the element list produced on a
fresh instance. -/
def parse_play (text : String) : List Element :=
  (parse_playWith [] text).1

/-- `parse_play` run with `k` additional units of fuel. -/
def parse_playFuel (k : Nat) (text : String) : List Element :=
  (parsePlayAnnotatedWith [] k text).map Prod.fst

/-- The character shape the claim of section 3 of the spec asserts for
registry entries: uppercase letters, the space character, hyphens and
apostrophes only. -/
def upperSpaceHyphenAposOnly (n : List Char) : Bool :=
  n.all fun c => c.isUpper || c = ' ' || c = '-' || c = apos

/-- Unfolding `parseLoop` at zero fuel. -/
theorem parseLoop_zero (ns lines : List (List Char)) (i : Nat) (m : Bool) :
    parseLoop ns lines 0 i m = [] := rfl

/-- One-step unfolding of `parseLoop` inside a speech block. -/
theorem parseLoop_succ_true (ns lines : List (List Char)) (f i : Nat) :
    parseLoop ns lines (f + 1) i true =
      (if i < lines.length then
        if lineAt lines i = [] then
          if i + 1 < lines.length ∧ lineAt lines (i + 1) ≠ [] then
            if lineAt lines (i + 1) ∈ ns then parseLoop ns lines f (i + 1) false
            else if is_action_line ns (lineAt lines (i + 1)) then
              parseLoop ns lines f (i + 1) false
            else parseLoop ns lines f (i + 1) true
          else parseLoop ns lines f (i + 1) true
        else if lineAt lines i ∈ ns then parseLoop ns lines f i false
        else if isActSceneLine (lineAt lines i) then parseLoop ns lines f i false
        else if leadsWith ['('] (lineAt lines i) ∧ ')' ∈ lineAt lines i then
          if (lineAt lines i).findIdx (fun c => c = ')') < (lineAt lines i).length - 1 then
            (⟨ElemKind.dialogue, lineAt lines i⟩, i) :: parseLoop ns lines f (i + 1) true
          else
            (⟨ElemKind.stage_direction, pyStripParens (lineAt lines i)⟩, i) ::
              parseLoop ns lines f (i + 1) true
        else if is_stage_direction (lineAt lines i) ∧ ¬ ' ' ∈ (lineAt lines i).take 15 then
          (⟨ElemKind.stage_direction, lineAt lines i⟩, i) :: parseLoop ns lines f (i + 1) true
        else
          (⟨ElemKind.dialogue, lineAt lines i⟩, i) :: parseLoop ns lines f (i + 1) true
      else []) := rfl

/-- One-step unfolding of `parseLoop` outside a speech block. -/
theorem parseLoop_succ_false (ns lines : List (List Char)) (f i : Nat) :
    parseLoop ns lines (f + 1) i false =
      (if i < lines.length then
        if lineAt lines i = [] then parseLoop ns lines f (i + 1) false
        else if isSceneHeadingLine (lineAt lines i) then
          (⟨ElemKind.scene_heading, pyUpper (lineAt lines i)⟩, i) ::
            parseLoop ns lines f (i + 1) false
        else if containsSub ("LIGHTS UP".data) (pyUpper (lineAt lines i)) then
          (⟨ElemKind.action, lineAt lines i⟩, i) :: parseLoop ns lines f (i + 1) false
        else if lineAt lines i ∈ beatForms then
          (⟨ElemKind.action, "Beat.".data⟩, i) :: parseLoop ns lines f (i + 1) false
        else if lineAt lines i ∈ ns then
          (⟨ElemKind.character, lineAt lines i⟩, i) :: parseLoop ns lines f (i + 1) true
        else if is_action_line ns (lineAt lines i) then
          (⟨ElemKind.action, lineAt lines i⟩, i) :: parseLoop ns lines f (i + 1) false
        else if lineAt lines i ≠ [] ∧ ¬ pyIsUpperStr (lineAt lines i) ∧
            5 < (lineAt lines i).length then
          (⟨ElemKind.action, lineAt lines i⟩, i) :: parseLoop ns lines f (i + 1) false
        else parseLoop ns lines f (i + 1) false
      else []) := rfl

/-- One extra unit of fuel does not change `parseLoop` once the fuel
exceeds `fuelNeed`. -/
theorem parseLoop_fuel_succ (ns lines : List (List Char)) :
    ∀ f i m, fuelNeed lines.length i m < f →
      parseLoop ns lines f i m = parseLoop ns lines (f + 1) i m := by
  intro f
  induction f with
  | zero => intro i m h; exact absurd h (by omega)
  | succ f ih =>
    intro i m h
    cases m with
    | true =>
      simp [fuelNeed] at h
      rw [parseLoop_succ_true, parseLoop_succ_true]
      repeat' split
      all_goals first
        | rfl
        | (apply ih; simp [fuelNeed]; omega)
        | (congr 1; apply ih; simp [fuelNeed]; omega)
    | false =>
      simp [fuelNeed] at h
      rw [parseLoop_succ_false, parseLoop_succ_false]
      repeat' split
      all_goals first
        | rfl
        | (apply ih; simp [fuelNeed]; omega)
        | (congr 1; apply ih; simp [fuelNeed]; omega)

/-- Extra fuel does not change `parseLoop` once the fuel exceeds
`fuelNeed`. -/
theorem parseLoop_fuel_add (ns lines : List (List Char)) (k : Nat) :
    ∀ f i m, fuelNeed lines.length i m < f →
      parseLoop ns lines f i m = parseLoop ns lines (f + k) i m := by
  induction k with
  | zero => intro f i m _; rfl
  | succ k ih =>
    intro f i m h
    rw [ih f i m h, show f + (k + 1) = (f + k) + 1 from rfl]
    exact parseLoop_fuel_succ ns lines (f + k) i m (by omega)

/-- Every element emitted by `parseLoop` from cursor `i` carries a source
line index at least `i`. -/
theorem parseLoop_idx_ge (ns lines : List (List Char)) :
    ∀ f i m p, p ∈ parseLoop ns lines f i m → i ≤ p.2 := by
  intro f
  induction f with
  | zero => intro i m p hp; rw [parseLoop_zero] at hp; exact absurd hp (List.not_mem_nil p)
  | succ f ih =>
    intro i m p hp
    cases m <;>
      first
        | rw [parseLoop_succ_true] at hp
        | rw [parseLoop_succ_false] at hp
    all_goals repeat' split at hp
    all_goals first
      | exact absurd hp (List.not_mem_nil p)
      | exact ih _ _ _ hp
      | exact Nat.le_of_succ_le (ih _ _ _ hp)
      | (rcases List.mem_cons.mp hp with rfl | hp'
         · exact Nat.le_refl _
         · exact Nat.le_of_succ_le (ih _ _ _ hp'))

/-- The source line indices attached by `parseLoop` are strictly
increasing along the output. -/
theorem parseLoop_pairwise (ns lines : List (List Char)) :
    ∀ f i m, List.Pairwise (fun p q : Element × Nat => p.2 < q.2)
      (parseLoop ns lines f i m) := by
  intro f
  induction f with
  | zero => intro i m; rw [parseLoop_zero]; exact List.Pairwise.nil
  | succ f ih =>
    intro i m
    cases m <;>
      first
        | rw [parseLoop_succ_true]
        | rw [parseLoop_succ_false]
    all_goals repeat' split
    all_goals first
      | exact List.Pairwise.nil
      | exact ih _ _
      | (refine List.pairwise_cons.mpr ⟨fun q hq => ?_, ih _ _⟩
         exact Nat.lt_of_succ_le (parseLoop_idx_ge ns lines _ _ _ _ hq))

/-- The only elements `parseLoop` can emit with empty text are stage
directions (produced by stripping the parentheses of a parenthetical
line). -/
theorem parseLoop_empty_text (ns lines : List (List Char)) :
    ∀ f i m p, p ∈ parseLoop ns lines f i m → p.1.text = [] →
      p.1.type = ElemKind.stage_direction := by
  intro f
  induction f with
  | zero =>
    intro i m p hp _
    rw [parseLoop_zero] at hp
    exact absurd hp (List.not_mem_nil p)
  | succ f ih =>
    intro i m p hp pt
    cases m <;>
      first
        | rw [parseLoop_succ_true] at hp
        | rw [parseLoop_succ_false] at hp
    all_goals repeat' split at hp
    all_goals first
      | exact absurd hp (List.not_mem_nil p)
      | exact ih _ _ _ hp pt
      | (rcases List.mem_cons.mp hp with rfl | hp'
         · first
           | rfl
           | simp_all [pyUpper]
         · exact ih _ _ _ hp' pt)

/-- The registry only ever grows: `regStep` keeps every present member. -/
theorem subset_foldl_regStep : ∀ (L : List (List Char)) (ns : List (List Char)),
    ns ⊆ L.foldl regStep ns := by
  intro L
  induction L with
  | nil => intro ns a ha; exact ha
  | cons x L ih =>
    intro ns a ha
    rw [List.foldl_cons]
    refine ih (regStep ns x) ?_
    unfold regStep addIfNew
    split
    · split
      · exact ha
      · exact List.mem_cons_of_mem _ ha
    · exact ha

/-- An accepted line of the scan ends up in the registry. -/
theorem mem_foldl_regStep_of_mem : ∀ (L : List (List Char)), ∀ l ∈ L, ∀ ns,
    nameCandidate (pyStrip l) = true → pyStrip l ∈ L.foldl regStep ns := by
  intro L
  induction L with
  | nil => intro l hl; cases hl
  | cons x L ih =>
    intro l hl ns hc
    rw [List.foldl_cons]
    rcases List.mem_cons.mp hl with rfl | hl
    · refine subset_foldl_regStep L (regStep ns l) ?_
      unfold regStep addIfNew
      rw [if_pos hc]
      split
      · assumption
      · exact List.mem_cons_self _ _
    · exact ih l hl (regStep ns x) hc

/-- When every accepted line of the scan is already present, the scan
leaves the registry unchanged. -/
theorem foldl_regStep_stable : ∀ (L : List (List Char)) (ns : List (List Char)),
    (∀ l ∈ L, nameCandidate (pyStrip l) = true → pyStrip l ∈ ns) →
    L.foldl regStep ns = ns := by
  intro L
  induction L with
  | nil => intro ns _; rfl
  | cons x L ih =>
    intro ns h
    have hx : regStep ns x = ns := by
      unfold regStep addIfNew
      split
      · rw [if_pos (h x (List.mem_cons_self x L) (by assumption))]
      · rfl
    rw [List.foldl_cons, hx]
    exact ih ns fun l hl => h l (List.mem_cons_of_mem x hl)

/-- Scanning the same text a second time adds nothing to the registry. -/
theorem identify_idem (ns : List (List Char)) (t : List Char) :
    identify_character_names (identify_character_names ns t) t =
      identify_character_names ns t := by
  unfold identify_character_names
  exact foldl_regStep_stable _ _ fun l hl hc => mem_foldl_regStep_of_mem _ l hl ns hc

/-- Every registry member was either present initially or passed the
acceptance test of `identify_character_names`. -/
theorem mem_identify (t : List Char) : ∀ (ns : List (List Char)) (n : List Char),
    n ∈ identify_character_names ns t → n ∈ ns ∨ nameCandidate n = true := by
  unfold identify_character_names
  generalize splitOnNL t = L
  induction L with
  | nil => intro ns n hn; exact Or.inl hn
  | cons x L ih =>
    intro ns n hn
    rw [List.foldl_cons] at hn
    rcases ih (regStep ns x) n hn with h | h
    · unfold regStep addIfNew at h
      split at h
      · split at h
        · exact Or.inl h
        · rcases List.mem_cons.mp h with rfl | h
          · exact Or.inr (by assumption)
          · exact Or.inl h
      · exact Or.inl h
    · exact Or.inr h

/-- Claim C1 (confirmed): parsing scenario A of the spec, with the
registry built from the same text, yields exactly the scene heading, the
two character cues and the two dialogue lines, in reading order. -/
theorem c1_scenario_a :
    parse_play "ACT ONE\n\nJOHN\nHello there.\n\nMARY\n(softly) Hi John." =
      [⟨ElemKind.scene_heading, "ACT ONE".data⟩,
       ⟨ElemKind.character, "JOHN".data⟩,
       ⟨ElemKind.dialogue, "Hello there.".data⟩,
       ⟨ElemKind.character, "MARY".data⟩,
       ⟨ElemKind.dialogue, "(softly) Hi John.".data⟩] := by
  decide

/-- Claim C5, counterexample: the standalone parenthetical line
`(JOHN exits quietly)` outside any speech block is NOT parsed to
`[StageDirection("JOHN exits quietly")]` as the claim states. -/
theorem c5_counterexample :
    parse_play "(JOHN exits quietly)" ≠
      [⟨ElemKind.stage_direction, "JOHN exits quietly".data⟩] := by
  decide

/-- Claim C5, amended: outside a speech block there is no parenthetical
rule, so the line `(JOHN exits quietly)` falls through to the default
action rule and is emitted as an Action element with the parentheses
retained. -/
theorem c5_amended :
    parse_play "(JOHN exits quietly)" =
      [⟨ElemKind.action, "(JOHN exits quietly)".data⟩] := by
  decide

/-- Claim C6, counterexample: the input line `()` inside the speech block
of JOHN (exactly the example the claim rules out) produces a
stage-direction element whose text is empty. -/
theorem c6_counterexample :
    (⟨ElemKind.stage_direction, []⟩ : Element) ∈ parse_play "JOHN\n()" := by
  decide

/-- Claim C7, counterexample: `INT. HOUSE` matches the scene-heading
pattern `^(ACT|SCENE|INT\.|EXT\.)`, yet encountered inside the speech
block of JOHN it does not end the speech: it is emitted as Dialogue
attributed to the current speaker. -/
theorem c7_counterexample :
    isSceneHeadingLine ("INT. HOUSE".data) = true ∧
      parse_play "JOHN\nINT. HOUSE" =
        [⟨ElemKind.character, "JOHN".data⟩,
         ⟨ElemKind.dialogue, "INT. HOUSE".data⟩] := by
  decide

/-- Claim C8, counterexample: `bEaT.` equals `beat` with a trailing
period case-insensitively, yet parsing it yields no element at all (the
line is dropped by the fallback rule), not `[Action("Beat.")]`. -/
theorem c8_counterexample :
    pyLower (pyStrip ("bEaT.".data)) = "beat.".data ∧
      parse_play "bEaT." = [] := by
  decide

/-- Claim C3, counterexample: the input line `A<TAB>B` is placed in the
registry by `identify_character_names` (the regex class `\s` admits any
whitespace character), but it contains a tab, which is not an uppercase
letter, space, hyphen or apostrophe as the claim requires. -/
theorem c3_counterexample :
    "A\tB".data ∈ identify_character_names [] ("A\tB".data) ∧
      upperSpaceHyphenAposOnly ("A\tB".data) = false := by
  decide

/-- Claim C9, counterexample: the registry survives one parse invocation
and changes the next.  After `parse_play("JOHN")`, parsing
`MARY\nHi.\n\nJOHN takes the key.` classifies the last line as Action
(ending the speech of MARY at the blank line), while a fresh instance
classifies it as Dialogue of MARY. -/
theorem c9_counterexample :
    (parse_playWith (parse_playWith [] "JOHN").2
        "MARY\nHi.\n\nJOHN takes the key.").1 ≠
      (parse_playWith [] "MARY\nHi.\n\nJOHN takes the key.").1 := by
  decide

/-- Claim C2 (confirmed): `parse_play` is the index-erasure of the
annotated walk, and along the annotated output the originating line
indices are strictly increasing — so for any two elements, the earlier
one comes from a line index that is at most (in fact strictly below)
that of the later one, and no line ever gives rise to two elements by
double-processing. -/
theorem c2_element_order (text : String) :
    parse_play text = (parsePlayAnnotated text).map Prod.fst ∧
      List.Pairwise (fun p q : Element × Nat => p.2 < q.2)
        (parsePlayAnnotated text) :=
  ⟨rfl, parseLoop_pairwise _ _ _ _ _⟩

/-- Claim C4 (confirmed): the walk of `parse_play` terminates on every
input and always returns an element list.  The loop is modelled with
explicit fuel, and the result is independent of any extra fuel beyond
what `parse_play` supplies: the walk always reaches the end of the
input rather than exhausting its budget.  All partial operations of the
source (`lines[i]`, `split()[0]`) are reached only under their guards,
so no exception path exists; unclassifiable lines are dropped by the
final fallback branch of the walk. -/
theorem c4_parse_play_total (text : String) (k : Nat) :
    parse_playFuel k text = parse_play text := by
  have h : fuelNeed (splitOnNL text.data).length
      (startIdx (identify_character_names [] text.data) (splitOnNL text.data))
      false < 2 * (splitOnNL text.data).length + 2 := by
    simp [fuelNeed]
    omega
  simp only [parse_playFuel, parse_play, parse_playWith, parsePlayAnnotatedWith,
    Nat.add_zero]
  rw [← parseLoop_fuel_add _ _ k _ _ _ h]

/-- Claim C3, amended: every registry entry starts with an uppercase
letter followed by 1 to 30 characters each of which is an uppercase
letter, a whitespace character (any member of the regex class `\s`, not
only the space character), a hyphen or an apostrophe; its total length
is between 2 and 31; it has at most 4 whitespace-separated words; and it
is not a member of the staging-keyword stoplist. -/
theorem c3_amended_registry_shape (text : String) (n : List Char)
    (hn : n ∈ identify_character_names [] text.data) :
    (∃ c rest, n = c :: rest ∧ c.isUpper = true ∧
        (∀ d ∈ rest, d.isUpper = true ∨ pyIsSpace d = true ∨ d = '-' ∨ d = apos) ∧
        1 ≤ rest.length ∧ rest.length ≤ 30) ∧
      2 ≤ n.length ∧ n.length ≤ 31 ∧ (pySplit n).length ≤ 4 ∧
      n ∉ nameStoplist := by
  rcases mem_identify text.data [] n hn with h | h
  · cases h
  · cases n with
    | nil => simp [nameCandidate, matchNameRe] at h
    | cons c rest =>
      simp only [nameCandidate, matchNameRe, Bool.and_eq_true, List.all_eq_true,
        decide_eq_true_eq, Bool.or_eq_true] at h
      obtain ⟨⟨⟨⟨⟨hc, hall⟩, h1⟩, h30⟩, hstop⟩, hwords⟩ := h
      refine ⟨⟨c, rest, rfl, hc, fun d hd => ?_, h1, h30⟩, ?_, ?_, hwords, hstop⟩
      · rcases hall d hd with ((h' | h') | h') | h'
        · exact Or.inl h'
        · exact Or.inr (Or.inl h')
        · exact Or.inr (Or.inr (Or.inl h'))
        · exact Or.inr (Or.inr (Or.inr h'))
      · simp only [List.length_cons]; omega
      · simp only [List.length_cons]; omega

/-- Claim C3, witness: `JOHN` is registered from the text `JOHN` and is
not a stoplist member. -/
theorem c3_amended_witness :
    "JOHN".data ∈ identify_character_names [] ("JOHN".data) ∧
      "JOHN".data ∉ nameStoplist :=
  ⟨by decide, (c3_amended_registry_shape "JOHN" ("JOHN".data) (by decide)).2.2.2.2⟩

/-- Claim C6, amended: stage directions are the only elements
`parse_play` can emit with an empty text field (a line consisting of
parenthesis characters only, inside a speech block, yields one); every
element of any other kind carries non-empty text. -/
theorem c6_amended_empty_text (text : String) (e : Element)
    (he : e ∈ parse_play text) (ht : e.text = []) :
    e.type = ElemKind.stage_direction := by
  unfold parse_play parse_playWith at he
  rw [List.mem_map] at he
  obtain ⟨p, hp, rfl⟩ := he
  exact parseLoop_empty_text _ _ _ _ _ p hp ht

/-- Claim C6, amended-theorem witness at the empty-text element produced
from `MARY` followed by `()`. -/
theorem c6_amended_witness :
    (⟨ElemKind.stage_direction, []⟩ : Element) ∈ parse_play "MARY\n()" ∧
      (⟨ElemKind.stage_direction, ([] : List Char)⟩ : Element).type =
        ElemKind.stage_direction :=
  ⟨by decide,
   c6_amended_empty_text "MARY\n()" ⟨ElemKind.stage_direction, []⟩ (by decide) rfl⟩

/-- Claim C7, amended: inside a speech block only lines matching
`^(ACT|SCENE)` (case-insensitive) end the block; such a line is not
consumed and produces no element there — the walk re-dispatches it
outside the block.  (Lines starting with `INT.` or `EXT.` do not end the
block; see the counterexample.) -/
theorem c7_amended_act_scene_breaks (ns lines : List (List Char)) (f i : Nat)
    (hi : i < lines.length) (hne : lineAt lines i ≠ [])
    (hns : lineAt lines i ∉ ns) (hact : isActSceneLine (lineAt lines i) = true) :
    parseLoop ns lines (f + 1) i true = parseLoop ns lines f i false := by
  rw [parseLoop_succ_true, if_pos hi, if_neg hne, if_neg hns, if_pos hact]

/-- Claim C7, amended-theorem witness: the line `ACT ONE` as the current
line inside a speech block hands control back to the outside walk. -/
theorem c7_amended_witness :
    parseLoop [] ["ACT ONE".data] 2 0 true = parseLoop [] ["ACT ONE".data] 1 0 false :=
  c7_amended_act_scene_breaks [] ["ACT ONE".data] 1 0 (by decide) (by decide)
    (by decide) (by decide)

/-- Claim C8, amended: outside a speech block, exactly the four literal
spellings `Beat.`, `Beat`, `beat.`, `beat` are normalized to an Action
element with text `Beat.`; the comparison is case-sensitive (so e.g.
`BEAT` is not covered — it is registered as a character name instead,
and `bEaT.` is dropped; see the counterexample). -/
theorem c8_amended_exact_beat_forms (ns lines : List (List Char)) (f i : Nat)
    (hi : i < lines.length) (hb : lineAt lines i ∈ beatForms) :
    parseLoop ns lines (f + 1) i false =
      (⟨ElemKind.action, "Beat.".data⟩, i) :: parseLoop ns lines f (i + 1) false := by
  have hb' : lineAt lines i = "Beat.".data ∨ lineAt lines i = "Beat".data ∨
      lineAt lines i = "beat.".data ∨ lineAt lines i = "beat".data := by
    simpa [beatForms] using hb
  rcases hb' with h | h | h | h <;>
    rw [parseLoop_succ_false, if_pos hi, h, if_neg (by decide), if_neg (by decide),
      if_neg (by decide), if_pos (by decide)]

/-- Claim C8, amended-theorem witness at the line `Beat`. -/
theorem c8_amended_witness :
    parseLoop [] ["Beat".data] 2 0 false =
      (⟨ElemKind.action, "Beat.".data⟩, 0) :: parseLoop [] ["Beat".data] 1 1 false :=
  c8_amended_exact_beat_forms [] ["Beat".data] 1 0 (by decide) (by decide)

/-- A line that starts with an opening parenthesis never matches the
`^(ACT|SCENE)` pattern. -/
theorem isActSceneLine_of_paren (s : List Char)
    (h : leadsWith ['('] s = true) : isActSceneLine s = false := by
  cases s with
  | nil => simp [leadsWith] at h
  | cons b t =>
    have hb : b = '(' := by
      simp [leadsWith] at h
      first
        | exact h
        | exact h.symm
    subst hb
    simp [isActSceneLine, pyLower, leadsWith]

/-- Claim C10 (confirmed): inside a speech block, for a line starting
with `(` and containing `)`, the inline-versus-standalone decision is
made on the FIRST closing parenthesis: when any character follows the
first `)` the full raw line is emitted as Dialogue (even when the line
ends in `)`, as with a nested parenthetical spanning the whole line),
and only when the first `)` is the final character is the line emitted
as a StageDirection with all leading and trailing parentheses
stripped. -/
theorem c10_first_paren_decides (ns lines : List (List Char)) (f i : Nat)
    (hi : i < lines.length)
    (hp : leadsWith ['('] (lineAt lines i) = true)
    (hc : ')' ∈ lineAt lines i)
    (hns : lineAt lines i ∉ ns) :
    parseLoop ns lines (f + 1) i true =
      (if (lineAt lines i).findIdx (fun c => c = ')') < (lineAt lines i).length - 1 then
        (⟨ElemKind.dialogue, lineAt lines i⟩, i)
      else
        (⟨ElemKind.stage_direction, pyStripParens (lineAt lines i)⟩, i)) ::
        parseLoop ns lines f (i + 1) true := by
  have hne : lineAt lines i ≠ [] := by
    intro h
    rw [h] at hp
    exact absurd hp (by decide)
  rw [parseLoop_succ_true, if_pos hi, if_neg hne, if_neg hns,
    if_neg (by rw [isActSceneLine_of_paren _ hp]; exact Bool.false_ne_true),
    if_pos ⟨hp, hc⟩]
  split <;> rfl

/-- Claim C10, witness: the nested parenthetical line
`(he (laughs) softly)` — whose last character is `)` but whose first `)`
is not final — is emitted as Dialogue carrying the full raw line. -/
theorem c10_witness :
    parseLoop [] ["(he (laughs) softly)".data] 2 0 true =
      (if (lineAt ["(he (laughs) softly)".data] 0).findIdx (fun c => c = ')') <
          (lineAt ["(he (laughs) softly)".data] 0).length - 1 then
        (⟨ElemKind.dialogue, lineAt ["(he (laughs) softly)".data] 0⟩, 0)
      else
        (⟨ElemKind.stage_direction,
            pyStripParens (lineAt ["(he (laughs) softly)".data] 0)⟩, 0)) ::
        parseLoop [] ["(he (laughs) softly)".data] 1 1 true :=
  c10_first_paren_decides [] ["(he (laughs) softly)".data] 1 0
    (by decide) (by decide) (by decide) (by decide)

/-- Claim C9, amended: parse invocations are NOT independent in general —
the registry persists on the instance and is only ever added to, so a
later parse behaves like a fresh parse whose registry is pre-seeded with
the earlier texts' names (see the counterexample).  Re-parsing the very
same text, however, is stable: the second invocation returns the same
element list and leaves the registry unchanged. -/
theorem c9_amended_same_text (t : String) :
    parse_playWith (parse_playWith [] t).2 t = parse_playWith [] t := by
  have h := identify_idem [] t.data
  simp only [parse_playWith, parsePlayAnnotatedWith, h]

end PlayFormatter
